import Mathlib

/-!
Verification of the monify-labs/agent sampling-and-aggregation engine.

This file gives a shallow embedding of the agent's core algorithms and
proves the specified properties about them:

* bounded history buffers with append-at-tail / evict-from-head semantics
  (internal/metrics/dynamic/{cpu,disk_space,network}.go and the memory
  collector): a buffer holds at most 600 samples and Collect atomically
  drains it;
* the per-resource reducers: CPU usage averaging plus an instantaneous
  load-average query, memory per-field averaging with an instantaneous
  fallback, and the pairwise-delta rate computations of the Disk-I/O and
  Network collectors;
* the interface classification cache of the network collector;
* the dynamic orchestrator's error-swallowing merge;
* the agent control loop's running / auth-failed state machine.

Modelling conventions: Go float64 arithmetic is modelled over ℚ (the code's
formulas involve only field operations, no rounding-sensitive behaviour is
claimed); Go uint64 values are Nat with every arithmetic step taken modulo
2 ^ 64 exactly where the code performs uint64 addition or subtraction; Go
maps keyed by strings are association lists queried with List.lookup;
fallible OS queries are explicit Except-valued inputs.
-/

set_option linter.unusedVariables false

namespace MonifyAgent

/-- Modulus of Go's uint64 arithmetic. -/
def U64 : Nat := 2 ^ 64

/-- Go uint64 addition (wraps modulo 2^64). -/
def addU64 (a b : Nat) : Nat := (a + b) % U64

/-- Go uint64 subtraction (wraps modulo 2^64): for values below 2^64 this is
ordinary subtraction when a ≥ b and underflows to 2^64 - (b - a) otherwise. -/
def subU64 (a b : Nat) : Nat := (a + U64 - b % U64) % U64

/-- Buffer capacity shared by all four bounded samplers
(const maxSamples = 600 in internal/metrics/dynamic/cpu.go). -/
def maxSamples : Nat := 600

/-- One sampler tick: append the new sample at the tail and, when the length
exceeds maxSamples, keep only the last maxSamples entries (the Go slice
reslicing samples = samples[len(samples)-maxSamples:]). -/
def pushSample {α : Type} (buf : List α) (s : α) : List α :=
  if (buf ++ [s]).length > maxSamples then
    (buf ++ [s]).drop ((buf ++ [s]).length - maxSamples)
  else buf ++ [s]

/-- Atomic drain used by every Collect: copy the whole buffer out and reset
it to empty (samples = samples[:0] under the sampler's lock). -/
def drain {α : Type} (buf : List α) : List α × List α := (buf, [])

/-- Buffer contents after a sequence of successful sample ticks starting
from the freshly constructed (empty) buffer. -/
def buildBuf {α : Type} (ss : List α) : List α := ss.foldl pushSample []

/-- An operation on a sampler's history buffer: a successful sample tick or
a draining Collect. -/
inductive BufOp (α : Type) : Type
  | tickOp (s : α) : BufOp α
  | collectOp : BufOp α

/-- Apply one buffer operation. -/
def applyOp {α : Type} (buf : List α) : BufOp α → List α
  | BufOp.tickOp s => pushSample buf s
  | BufOp.collectOp => (drain buf).2

/-- Buffer contents after an arbitrary interleaving of ticks and Collects,
starting from the empty buffer. -/
def applyOps {α : Type} (ops : List (BufOp α)) : List α := ops.foldl applyOp []

/-! ### CPU collector (internal/metrics/dynamic/cpu.go) -/

/-- One CPU usage sample (struct cpuSample). -/
structure CpuSample where
  usagePercent : ℚ
  timestamp : ℚ
deriving DecidableEq

/-- Result of the instantaneous load-average query (load.AvgWithContext). -/
structure LoadAvgStat where
  load1 : ℚ
  load5 : ℚ
  load15 : ℚ
deriving DecidableEq

/-- Reduced CPU metrics (models.CPUMetrics). -/
structure CPUMetrics where
  usagePercent : ℚ
  loadAvg1m : ℚ
  loadAvg5m : ℚ
  loadAvg15m : ℚ
deriving DecidableEq

/-- Average CPU usage over a drained batch: sum of sample percentages
divided by the sample count, 0 for an empty batch. -/
def cpuUsageAvg (samples : List CpuSample) : ℚ :=
  if samples.length > 0 then
    (samples.foldl (fun acc s => acc + s.usagePercent) 0) / (samples.length : ℚ)
  else 0

/-- CPUCollector.Collect: first performs the instantaneous load-average
query and returns its error without touching the buffer; on success it
drains the buffer and returns the averaged usage together with the three
load averages. The second component is the buffer left behind. -/
def cpuCollect (st : List CpuSample) (loadQuery : Except Unit LoadAvgStat) :
    Except Unit CPUMetrics × List CpuSample :=
  match loadQuery with
  | Except.error e => (Except.error e, st)
  | Except.ok la =>
      let d := drain st
      (Except.ok ⟨cpuUsageAvg d.1, la.load1, la.load5, la.load15⟩, d.2)

/-! ### Memory collector (the memory sampler source file) -/

/-- Result of an instantaneous virtual-memory query (mem.VirtualMemory). -/
structure VmemStat where
  total : Nat
  used : Nat
  free : Nat
  available : Nat
  usedPercent : ℚ
  cached : Nat
  buffers : Nat
deriving DecidableEq

/-- One memory sample (struct memorySample). -/
structure MemSample where
  total : Nat
  used : Nat
  free : Nat
  available : Nat
  usedPercent : ℚ
  cached : Nat
  buffers : Nat
  timestamp : ℚ
deriving DecidableEq

/-- Reduced memory metrics (models.MemoryMetrics). -/
structure MemoryMetrics where
  total : Nat
  used : Nat
  free : Nat
  available : Nat
  usedPercent : ℚ
  cached : Nat
  buffers : Nat
deriving DecidableEq

/-- Accumulator of the memory averaging loop (the sumTotal, sumUsed, ...
local variables of MemoryCollector.Collect). -/
structure MemAcc where
  sumTotal : Nat
  sumUsed : Nat
  sumFree : Nat
  sumAvailable : Nat
  sumCached : Nat
  sumBuffers : Nat
  sumUsedPercent : ℚ
deriving DecidableEq

/-- One iteration of the memory summing loop; the uint64 fields accumulate
with Go's wrapping addition, usedPercent accumulates as float64. -/
def memSumStep (acc : MemAcc) (s : MemSample) : MemAcc :=
  ⟨addU64 acc.sumTotal s.total, addU64 acc.sumUsed s.used,
   addU64 acc.sumFree s.free, addU64 acc.sumAvailable s.available,
   addU64 acc.sumCached s.cached, addU64 acc.sumBuffers s.buffers,
   acc.sumUsedPercent + s.usedPercent⟩

/-- MemoryCollector.Collect: drain the buffer; if the drained batch is
empty, fall back to one fresh instantaneous query (propagating its error);
otherwise return the per-field averages, integer fields dividing by the
drained sample count with uint64 truncation. -/
def memCollect (st : List MemSample) (freshQuery : Except Unit VmemStat) :
    Except Unit MemoryMetrics × List MemSample :=
  let d := drain st
  let samples := d.1
  if samples.length = 0 then
    match freshQuery with
    | Except.error e => (Except.error e, d.2)
    | Except.ok v =>
        (Except.ok ⟨v.total, v.used, v.free, v.available, v.usedPercent,
          v.cached, v.buffers⟩, d.2)
  else
    let acc := samples.foldl memSumStep ⟨0, 0, 0, 0, 0, 0, 0⟩
    let count := samples.length
    (Except.ok ⟨acc.sumTotal / count, acc.sumUsed / count, acc.sumFree / count,
      acc.sumAvailable / count, acc.sumUsedPercent / (count : ℚ),
      acc.sumCached / count, acc.sumBuffers / count⟩, d.2)

/-! ### Disk-I/O collector (internal/metrics/dynamic/disk_space.go) -/

/-- Per-device I/O counters (struct ioStats). -/
structure IoStats where
  readBytes : Nat
  writeBytes : Nat
  readCount : Nat
  writeCount : Nat
deriving DecidableEq

/-- One disk-I/O sample (struct diskIOSample): map from device name to
counters, plus a timestamp in seconds. -/
structure DiskIOSample where
  devices : List (String × IoStats)
  timestamp : ℚ
deriving DecidableEq

/-- Reduced disk-I/O metrics (models.DiskIOMetrics). -/
structure DiskIOMetrics where
  readMBps : ℚ
  writeMBps : ℚ
  readIOPS : ℚ
  writeIOPS : ℚ
deriving DecidableEq

/-- Accumulator of the rate-averaging loop (totalReadMBps, ...,
rateCount local variables of DiskIOCollector.Collect). -/
structure RateAcc where
  totRead : ℚ
  totWrite : ℚ
  totReadOps : ℚ
  totWriteOps : ℚ
  cnt : Nat
deriving DecidableEq

/-- Aggregate uint64 counter deltas of one consecutive sample pair: for
every device of the current sample that is also present in the previous
sample, add (with uint64 wrapping) the unsigned difference of each counter;
devices present in only one sample contribute nothing. -/
def diskPairDeltas (prev curr : DiskIOSample) : IoStats :=
  curr.devices.foldl
    (fun acc dev =>
      match prev.devices.lookup dev.1 with
      | some p =>
          ⟨addU64 acc.readBytes (subU64 dev.2.readBytes p.readBytes),
           addU64 acc.writeBytes (subU64 dev.2.writeBytes p.writeBytes),
           addU64 acc.readCount (subU64 dev.2.readCount p.readCount),
           addU64 acc.writeCount (subU64 dev.2.writeCount p.writeCount)⟩
      | none => acc)
    ⟨0, 0, 0, 0⟩

/-- One iteration of the disk-I/O rate loop: skip the pair when the elapsed
seconds are ≤ 0, otherwise add the pair's aggregate MB/s and ops/s rates to
the running totals and count the pair. -/
def diskRateStep (acc : RateAcc) (p : DiskIOSample × DiskIOSample) : RateAcc :=
  let duration := p.2.timestamp - p.1.timestamp
  if duration ≤ 0 then acc
  else
    let d := diskPairDeltas p.1 p.2
    ⟨acc.totRead + (d.readBytes : ℚ) / duration / 1024 / 1024,
     acc.totWrite + (d.writeBytes : ℚ) / duration / 1024 / 1024,
     acc.totReadOps + (d.readCount : ℚ) / duration,
     acc.totWriteOps + (d.writeCount : ℚ) / duration,
     acc.cnt + 1⟩

/-- Rate reduction of DiskIOCollector.Collect on the drained batch: all-zero
rates with fewer than 2 samples; otherwise the mean over all counted
consecutive pairs of the per-pair aggregate rates (and zero again when every
pair was skipped). -/
def diskIOReduce (samples : List DiskIOSample) : DiskIOMetrics :=
  if samples.length < 2 then ⟨0, 0, 0, 0⟩
  else
    let acc := (samples.zip samples.tail).foldl diskRateStep ⟨0, 0, 0, 0, 0⟩
    if acc.cnt > 0 then
      ⟨acc.totRead / (acc.cnt : ℚ), acc.totWrite / (acc.cnt : ℚ),
       acc.totReadOps / (acc.cnt : ℚ), acc.totWriteOps / (acc.cnt : ℚ)⟩
    else ⟨0, 0, 0, 0⟩

/-- DiskIOCollector.Collect: drain the buffer and reduce the batch; the
call itself never fails. -/
def diskIOCollect (st : List DiskIOSample) : DiskIOMetrics × List DiskIOSample :=
  let d := drain st
  (diskIOReduce d.1, d.2)

/-- Modelled from the spec (section 4.4), for comparison with diskIOReduce:
the per-pair rate as an optional value, absent exactly when the pair is
skipped for non-positive elapsed time. -/
def diskPairRateSpec (p : DiskIOSample × DiskIOSample) : Option DiskIOMetrics :=
  let elapsed := p.2.timestamp - p.1.timestamp
  if elapsed ≤ 0 then none
  else
    let d := diskPairDeltas p.1 p.2
    some ⟨(d.readBytes : ℚ) / elapsed / 1024 / 1024,
          (d.writeBytes : ℚ) / elapsed / 1024 / 1024,
          (d.readCount : ℚ) / elapsed,
          (d.writeCount : ℚ) / elapsed⟩

/-- Modelled from the spec (section 4.4), for comparison with diskIOReduce:
with fewer than 2 samples all rates are zero, otherwise the result is the
arithmetic mean of the per-pair rates over all valid consecutive pairs. -/
def diskIOReduceSpec (samples : List DiskIOSample) : DiskIOMetrics :=
  if samples.length < 2 then ⟨0, 0, 0, 0⟩
  else
    let rates := (samples.zip samples.tail).filterMap diskPairRateSpec
    if rates.length > 0 then
      ⟨((rates.map DiskIOMetrics.readMBps).sum) / (rates.length : ℚ),
       ((rates.map DiskIOMetrics.writeMBps).sum) / (rates.length : ℚ),
       ((rates.map DiskIOMetrics.readIOPS).sum) / (rates.length : ℚ),
       ((rates.map DiskIOMetrics.writeIOPS).sum) / (rates.length : ℚ)⟩
    else ⟨0, 0, 0, 0⟩

/-! ### Network collector (internal/metrics/dynamic/network.go) -/

/-- Per-interface counters (struct networkStats). -/
structure NetStats where
  bytesSent : Nat
  bytesRecv : Nat
  errorsIn : Nat
  errorsOut : Nat
  dropsIn : Nat
  dropsOut : Nat
deriving DecidableEq

/-- One network sample (struct networkSample): map from interface name to
counters, plus a timestamp in seconds. -/
structure NetSample where
  interfaces : List (String × NetStats)
  timestamp : ℚ
deriving DecidableEq

/-- Aggregated bandwidth metrics (models.NetworkAggregateMetrics). -/
structure NetworkAggregateMetrics where
  sendMbps : ℚ
  recvMbps : ℚ
  totalSentGB : ℚ
  totalRecvGB : ℚ
deriving DecidableEq

/-- Accumulator of the network rate loop (totalSendMbps, totalRecvMbps,
rateCount local variables of collectByType). -/
structure NetRateAcc where
  totSend : ℚ
  totRecv : ℚ
  cnt : Nat
deriving DecidableEq

/-- The label "public". -/
def publicLabel : String := "public"

/-- The label "private". -/
def privateLabel : String := "private"

/-- The zero value of Go's string type, produced by a map lookup that finds
no entry. -/
def emptyLabel : String := ""

/-- Example interface name used in concrete instantiations. -/
def ifaceA : String := "eth0"

/-- Example device name used in concrete instantiations. -/
def devA : String := "sda"

/-- Type label of an interface as read by collectByType: the cached label,
or the empty string when the interface was never classified (Go map zero
value). -/
def ifaceLabel (types : List (String × String)) (name : String) : String :=
  (types.lookup name).getD emptyLabel

/-- Aggregate uint64 sent/received byte deltas of one consecutive sample
pair, restricted to interfaces whose cached label equals the requested type
and which are present in both samples. -/
def netPairDeltas (types : List (String × String)) (ifaceType : String)
    (prev curr : NetSample) : Nat × Nat :=
  curr.interfaces.foldl
    (fun acc dev =>
      if ifaceLabel types dev.1 ≠ ifaceType then acc
      else
        match prev.interfaces.lookup dev.1 with
        | some p =>
            (addU64 acc.1 (subU64 dev.2.bytesSent p.bytesSent),
             addU64 acc.2 (subU64 dev.2.bytesRecv p.bytesRecv))
        | none => acc)
    (0, 0)

/-- One iteration of the network rate loop: skip the pair when the elapsed
seconds are ≤ 0, otherwise add the pair's aggregate Mbps rates (bytes × 8 /
seconds / 10^6) to the running totals and count the pair. -/
def netRateStep (types : List (String × String)) (ifaceType : String)
    (acc : NetRateAcc) (p : NetSample × NetSample) : NetRateAcc :=
  let duration := p.2.timestamp - p.1.timestamp
  if duration ≤ 0 then acc
  else
    let d := netPairDeltas types ifaceType p.1 p.2
    ⟨acc.totSend + (d.1 : ℚ) * 8 / duration / 1000000,
     acc.totRecv + (d.2 : ℚ) * 8 / duration / 1000000,
     acc.cnt + 1⟩

/-- Cumulative sent/received byte totals over the matching interfaces of
one sample (the lastSample loop of collectByType), with wrapping uint64
addition. -/
def netTotals (types : List (String × String)) (ifaceType : String)
    (s : NetSample) : Nat × Nat :=
  s.interfaces.foldl
    (fun acc dev =>
      if ifaceLabel types dev.1 = ifaceType then
        (addU64 acc.1 dev.2.bytesSent, addU64 acc.2 dev.2.bytesRecv)
      else acc)
    (0, 0)

/-- NetworkCollector.collectByType: drain the shared sample buffer; with
fewer than 2 samples return all-zero metrics; otherwise report cumulative
totals from the most recent drained sample and the mean pairwise-delta Mbps
rates over matching interfaces. The second component is the buffer left
behind (always empty). -/
def collectByType (samples : List NetSample) (types : List (String × String))
    (ifaceType : String) : NetworkAggregateMetrics × List NetSample :=
  let d := drain samples
  let s := d.1
  if s.length < 2 then (⟨0, 0, 0, 0⟩, d.2)
  else
    let last := s.getLastD ⟨[], 0⟩
    let tot := netTotals types ifaceType last
    let racc := (s.zip s.tail).foldl (netRateStep types ifaceType) ⟨0, 0, 0⟩
    let avgSend := if racc.cnt > 0 then racc.totSend / (racc.cnt : ℚ) else 0
    let avgRecv := if racc.cnt > 0 then racc.totRecv / (racc.cnt : ℚ) else 0
    (⟨avgSend, avgRecv, (tot.1 : ℚ) / 1000000000, (tot.2 : ℚ) / 1000000000⟩, d.2)

/-! ### Interface classifier (network.go: classifyInterface and the
first-encounter cache update in sample) -/

/-- One address of an interface as the classifier sees it: either it fails
to parse (both ParseCIDR and the ParseIP fallback yield nil), or it parses
with its loopback / unspecified / RFC1918-or-ULA-private attributes. -/
inductive ParsedAddr : Type
  | invalid : ParsedAddr
  | valid (loopback unspecified priv : Bool) : ParsedAddr
deriving DecidableEq

/-- Scan of the interface's address list: the first parsed, non-loopback,
non-unspecified address decides (private range ⇒ "private", otherwise
"public"); if no address decides, default to "private". -/
def classifyAddrs : List ParsedAddr → String
  | [] => privateLabel
  | ParsedAddr.invalid :: rest => classifyAddrs rest
  | ParsedAddr.valid lb un priv :: rest =>
      if !lb && !un then (if priv then privateLabel else publicLabel)
      else classifyAddrs rest

/-- classifyInterface: "private" when the interface lookup or its address
query fails (input none), otherwise the address-list scan. -/
def classifyInterface : Option (List ParsedAddr) → String
  | none => privateLabel
  | some addrs => classifyAddrs addrs

/-- The first-encounter cache update performed by NetworkCollector.sample
for one observed interface: an interface already in the cache is left
untouched (its addresses are not even inspected); a new interface is
classified from its current addresses and inserted. -/
def observeInterface (cache : List (String × String)) (name : String)
    (addrs : Option (List ParsedAddr)) : List (String × String) :=
  match cache.lookup name with
  | some _ => cache
  | none => (name, classifyInterface addrs) :: cache

/-! ### Dynamic orchestrator (internal/agent/metrics_dynamic.go) -/

/-- Swap metrics (models.SwapMetrics). -/
structure SwapMetrics where
  total : Nat
  used : Nat
  usedPercent : ℚ
deriving DecidableEq

/-- Aggregate disk-space metrics (models.DiskSpaceMetrics). -/
structure DiskSpaceMetrics where
  total : Nat
  used : Nat
  free : Nat
  usedPercent : ℚ
deriving DecidableEq

/-- Network health metrics (models.NetworkHealthMetrics). -/
structure NetworkHealthMetrics where
  errorsIn : Nat
  errorsOut : Nat
  dropsIn : Nat
  dropsOut : Nat
deriving DecidableEq

/-- Instantaneous system metrics (models.SystemMetrics). -/
structure SystemMetrics where
  uptime : Nat
  bootTime : Nat
  processCount : Nat
deriving DecidableEq

/-- Merged snapshot of one dynamic collection cycle (models.DynamicMetrics):
every field is independently optional and stays nil when its branch failed. -/
structure DynamicMetrics where
  cpu : Option CPUMetrics
  memory : Option MemoryMetrics
  swap : Option SwapMetrics
  diskSpace : Option DiskSpaceMetrics
  diskIORates : Option DiskIOMetrics
  networkPublic : Option NetworkAggregateMetrics
  networkPrivate : Option NetworkAggregateMetrics
  networkHealth : Option NetworkHealthMetrics
  system : Option SystemMetrics
deriving DecidableEq

/-- Merge of one fan-out branch into the shared snapshot: the branch's
value when it succeeded, absent when it returned an error (the error itself
is dropped). -/
def mergeBranch {τ : Type} : Except Unit τ → Option τ
  | Except.ok v => some v
  | Except.error _ => none

/-- DynamicCollector.Collect: the snapshot assembled after the wait barrier,
each field holding its branch's result iff that branch succeeded; the call
itself always returns success. -/
def dynCollect (cpuR : Except Unit CPUMetrics) (memR : Except Unit MemoryMetrics)
    (swapR : Except Unit SwapMetrics) (diskSpaceR : Except Unit DiskSpaceMetrics)
    (diskRatesR : Except Unit DiskIOMetrics)
    (pubR : Except Unit NetworkAggregateMetrics)
    (privR : Except Unit NetworkAggregateMetrics)
    (healthR : Except Unit NetworkHealthMetrics)
    (sysR : Except Unit SystemMetrics) : Except Unit DynamicMetrics :=
  Except.ok
    ⟨mergeBranch cpuR, mergeBranch memR, mergeBranch swapR,
     mergeBranch diskSpaceR, mergeBranch diskRatesR, mergeBranch pubR,
     mergeBranch privR, mergeBranch healthR, mergeBranch sysR⟩

/-! ### Agent control loop (the Agent source file: Start, collectAndSend)

The modelled state fields are exactly the ones the loop mutates under its
lock: running, authFailed, metricsCount, errorCount, plus whether the
samplers are on and whether (and with which code) the process has exited.
The hostname and timestamp fields only affect the payload contents and
logging, never a transition. A static-refresh failure inside collectAndSend
is only logged, so it does not appear in the transition either. -/

/-- Outcome of one transport send: accepted (with a server command list),
rejected with the 401 ErrUnauthorized signal, or any other failure. -/
inductive SendOutcome : Type
  | accepted (commands : List String) : SendOutcome
  | unauthorized : SendOutcome
  | failed : SendOutcome
deriving DecidableEq

/-- Mutable agent state (the lock-guarded fields of struct Agent, plus the
sampler and process status the claims are about). -/
structure AgentSt where
  running : Bool
  authFailed : Bool
  metricsCount : Nat
  errorCount : Nat
  samplersOn : Bool
  exitCode : Option Nat
deriving DecidableEq

/-- Agent.collectAndSend: a dynamic-collection failure increments the error
counter and aborts the cycle; an unauthorized send response marks
authFailed; any other send failure increments the error counter; a
successful send increments the success counter. No path touches running,
the samplers, or the process. -/
def collectAndSend (st : AgentSt) (dynOk : Bool) (send : SendOutcome) : AgentSt :=
  if !dynOk then { st with errorCount := st.errorCount + 1 }
  else
    match send with
    | SendOutcome.unauthorized => { st with authFailed := true }
    | SendOutcome.failed => { st with errorCount := st.errorCount + 1 }
    | SendOutcome.accepted _ => { st with metricsCount := st.metricsCount + 1 }

/-- One 15-second tick of Agent.Start's loop: a process that has already
exited does nothing; otherwise, if authFailed is set the agent stops
(running becomes false, samplers stop) and the process exits with the
reserved code 3 before any further cycle; otherwise one collect-and-send
cycle runs. -/
def tickStep (st : AgentSt) (dynOk : Bool) (send : SendOutcome) : AgentSt :=
  if st.exitCode.isSome then st
  else if st.authFailed then
    { st with running := false, samplersOn := false, exitCode := some 3 }
  else collectAndSend st dynOk send

/-- The loop run over a sequence of tick inputs (per tick: whether dynamic
collection succeeds and the transport outcome). -/
def runTicks (st : AgentSt) : List (Bool × SendOutcome) → AgentSt
  | [] => st
  | (d, s) :: rest => runTicks (tickStep st d s) rest

/-! ### Helper lemmas -/

/-- Length after one tick: one more element, capped at the capacity. -/
lemma pushSample_length {α : Type} (buf : List α) (s : α) :
    (pushSample buf s).length = min (buf.length + 1) maxSamples := by
  unfold pushSample
  split
  · rename_i h
    simp only [List.length_drop, List.length_append, List.length_singleton] at h ⊢
    omega
  · rename_i h
    simp only [List.length_append, List.length_singleton] at h ⊢
    omega

/-- Length of a buffer built by successive ticks on top of a buffer that
respects the capacity. -/
lemma foldl_pushSample_length {α : Type} (ss : List α) (buf : List α)
    (hbuf : buf.length ≤ maxSamples) :
    (ss.foldl pushSample buf).length = min (buf.length + ss.length) maxSamples := by
  induction ss generalizing buf with
  | nil => simp; omega
  | cons a rest ih =>
    simp only [List.foldl_cons, List.length_cons]
    rw [ih (pushSample buf a) (by rw [pushSample_length]; omega),
      pushSample_length]
    omega

/-- Length of a buffer built from the empty buffer by N ticks. -/
lemma buildBuf_length {α : Type} (ss : List α) :
    (buildBuf ss).length = min ss.length maxSamples := by
  unfold buildBuf
  rw [foldl_pushSample_length ss [] (by simp)]
  simp

/-- One buffer operation preserves the capacity bound. -/
lemma applyOp_length_le {α : Type} (buf : List α) (op : BufOp α)
    (h : buf.length ≤ maxSamples) : (applyOp buf op).length ≤ maxSamples := by
  cases op with
  | tickOp s => rw [applyOp, pushSample_length]; omega
  | collectOp => simp [applyOp, drain]

/-- Any run of buffer operations preserves the capacity bound. -/
lemma foldl_applyOp_length {α : Type} (ops : List (BufOp α)) (buf : List α)
    (h : buf.length ≤ maxSamples) :
    (ops.foldl applyOp buf).length ≤ maxSamples := by
  induction ops generalizing buf with
  | nil => simpa
  | cons op rest ih => exact ih _ (applyOp_length_le _ _ h)

/-- collectByType always leaves the shared buffer empty. -/
lemma collectByType_snd (samples : List NetSample)
    (types : List (String × String)) (ty : String) :
    (collectByType samples types ty).2 = [] := by
  simp only [collectByType, drain]
  split <;> rfl

/-- memCollect always leaves the buffer empty. -/
lemma memCollect_snd (st : List MemSample) (q : Except Unit VmemStat) :
    (memCollect st q).2 = [] := by
  simp only [memCollect, drain]
  split
  · cases q <;> rfl
  · rfl

/-- An exited process ignores every later tick. -/
lemma runTicks_exited (l : List (Bool × SendOutcome)) (st : AgentSt)
    (h : st.exitCode.isSome = true) : runTicks st l = st := by
  induction l with
  | nil => rfl
  | cons p rest ih =>
    obtain ⟨d, s⟩ := p
    rw [runTicks]
    rw [show tickStep st d s = st by simp [tickStep, h]]
    exact ih

/-- Decidable equality of Except values, used to evaluate concrete
collector results. -/
instance exceptDecidableEq {ε α : Type} [DecidableEq ε] [DecidableEq α] :
    DecidableEq (Except ε α) := fun x y =>
  match x, y with
  | Except.ok a, Except.ok b =>
      if h : a = b then isTrue (by rw [h])
      else isFalse (fun hc => h (Except.ok.inj hc))
  | Except.error a, Except.error b =>
      if h : a = b then isTrue (by rw [h])
      else isFalse (fun hc => h (Except.error.inj hc))
  | Except.ok a, Except.error b => isFalse (fun hc => Except.noConfusion hc)
  | Except.error a, Except.ok b => isFalse (fun hc => Except.noConfusion hc)

/-- The uint64 modulus is positive. -/
lemma U64_pos : 0 < U64 := by norm_num [U64]

/-- Wrapping addition always yields a valid uint64 value. -/
lemma addU64_lt (a b : Nat) : addU64 a b < U64 := Nat.mod_lt _ U64_pos

/-- Wrapping subtraction always yields a valid uint64 value. -/
lemma subU64_lt (a b : Nat) : subU64 a b < U64 := Nat.mod_lt _ U64_pos

/-- Wrapping addition without overflow is plain addition. -/
lemma addU64_of_lt (a b : Nat) (h : a + b < U64) : addU64 a b = a + b :=
  Nat.mod_eq_of_lt h

/-- Wrapping subtraction without underflow is plain subtraction. -/
lemma subU64_of_le (a b : Nat) (hba : b ≤ a) (ha : a < U64) :
    subU64 a b = a - b := by
  unfold subU64
  rw [Nat.mod_eq_of_lt (lt_of_le_of_lt hba ha),
    show a + U64 - b = (a - b) + U64 by omega, Nat.add_mod_right]
  exact Nat.mod_eq_of_lt (by omega)

/-- Wrapping subtraction with underflow: the result is the (huge) value
2^64 - (b - a), i.e. the difference modulo 2^64. -/
lemma subU64_underflow (a b : Nat) (hab : a < b) (hb : b < U64) :
    subU64 a b = U64 - (b - a) := by
  unfold subU64
  rw [Nat.mod_eq_of_lt hb, Nat.mod_eq_of_lt (by omega)]
  omega

/-- Adding a wrapped value to zero leaves it unchanged. -/
lemma addU64_zero_subU64 (a b : Nat) : addU64 0 (subU64 a b) = subU64 a b := by
  unfold addU64
  rw [Nat.zero_add]
  exact Nat.mod_eq_of_lt (subU64_lt a b)

/-- A memory accumulator whose uint64 fields are valid uint64 values. -/
def MemAcc.bounded (acc : MemAcc) : Prop :=
  acc.sumTotal < U64 ∧ acc.sumUsed < U64 ∧ acc.sumFree < U64 ∧
  acc.sumAvailable < U64 ∧ acc.sumCached < U64 ∧ acc.sumBuffers < U64

/-- One summing step keeps the accumulator bounded. -/
lemma memSumStep_bounded (acc : MemAcc) (s : MemSample) :
    (memSumStep acc s).bounded :=
  ⟨addU64_lt _ _, addU64_lt _ _, addU64_lt _ _, addU64_lt _ _, addU64_lt _ _,
   addU64_lt _ _⟩

/-- The memory summing loop computes, per uint64 field, the plain sum
reduced modulo 2^64, and the exact rational sum for usedPercent. -/
lemma memSumStep_foldl (l : List MemSample) (acc : MemAcc) (h : acc.bounded) :
    l.foldl memSumStep acc =
      ⟨(acc.sumTotal + (l.map MemSample.total).sum) % U64,
       (acc.sumUsed + (l.map MemSample.used).sum) % U64,
       (acc.sumFree + (l.map MemSample.free).sum) % U64,
       (acc.sumAvailable + (l.map MemSample.available).sum) % U64,
       (acc.sumCached + (l.map MemSample.cached).sum) % U64,
       (acc.sumBuffers + (l.map MemSample.buffers).sum) % U64,
       acc.sumUsedPercent + (l.map MemSample.usedPercent).sum⟩ := by
  induction l generalizing acc with
  | nil =>
    obtain ⟨h1, h2, h3, h4, h5, h6⟩ := h
    simp only [List.foldl_nil, List.map_nil, List.sum_nil, Nat.add_zero,
      add_zero]
    rw [Nat.mod_eq_of_lt h1, Nat.mod_eq_of_lt h2, Nat.mod_eq_of_lt h3,
      Nat.mod_eq_of_lt h4, Nat.mod_eq_of_lt h5, Nat.mod_eq_of_lt h6]
  | cons s rest ih =>
    rw [List.foldl_cons, ih (memSumStep acc s) (memSumStep_bounded acc s)]
    simp only [memSumStep, addU64, List.map_cons, List.sum_cons,
      MemAcc.mk.injEq]
    refine ⟨?_, ?_, ?_, ?_, ?_, ?_, by ring⟩ <;>
      rw [Nat.mod_add_mod, Nat.add_assoc]

/-! ### Claim theorems -/

/-- C10: CPU Collect is atomic with respect to its own failure — the
load-average query runs before the drain, so when it fails Collect returns
the error and the sample buffer is left exactly as it was. -/
theorem c10_cpu_collect_atomic_on_load_failure (st : List CpuSample) :
    cpuCollect st (Except.error ()) = (Except.error (), st) := rfl

/-- C2: calling CollectByType(public) and then CollectByType(private) with
no sample tick in between starves the second call: the first call drains
and clears the shared buffer, so the second sees fewer than 2 samples and
returns all-zero rates (and itself leaves the buffer empty). -/
theorem c2_double_drain_starves_second_call (samples : List NetSample)
    (types : List (String × String)) :
    collectByType (collectByType samples types publicLabel).2 types privateLabel =
      (⟨0, 0, 0, 0⟩, []) := by
  rw [collectByType_snd]
  rfl

/-- C7: the dynamic orchestrator's Collect never returns an error: every
branch error is swallowed and only leaves that branch's field absent, and
when every branch fails the snapshot has every field absent while the call
still reports success. -/
theorem c7_orchestrator_swallows_all_branch_errors
    (cpuR : Except Unit CPUMetrics) (memR : Except Unit MemoryMetrics)
    (swapR : Except Unit SwapMetrics) (diskSpaceR : Except Unit DiskSpaceMetrics)
    (diskRatesR : Except Unit DiskIOMetrics)
    (pubR : Except Unit NetworkAggregateMetrics)
    (privR : Except Unit NetworkAggregateMetrics)
    (healthR : Except Unit NetworkHealthMetrics)
    (sysR : Except Unit SystemMetrics) :
    (∃ m, dynCollect cpuR memR swapR diskSpaceR diskRatesR pubR privR healthR
        sysR = Except.ok m) ∧
    dynCollect (Except.error ()) (Except.error ()) (Except.error ())
        (Except.error ()) (Except.error ()) (Except.error ()) (Except.error ())
        (Except.error ()) (Except.error ()) =
      Except.ok ⟨none, none, none, none, none, none, none, none, none⟩ :=
  ⟨⟨_, rfl⟩, rfl⟩

/-- C5: for every interleaving of sample ticks and Collects the history
buffer never exceeds the capacity 600, and a tick appends at the tail and
evicts from the head (the result is the suffix of buf ++ [s] obtained by
dropping the oldest overflow elements). -/
theorem c5_buffer_capacity_invariant {α : Type} (ops : List (BufOp α))
    (buf : List α) (s : α) :
    maxSamples = 600 ∧
    (applyOps ops).length ≤ maxSamples ∧
    pushSample buf s = (buf ++ [s]).drop (buf.length + 1 - maxSamples) := by
  refine ⟨rfl, foldl_applyOp_length ops [] (by simp), ?_⟩
  unfold pushSample
  split
  · rename_i h
    rw [show (buf ++ [s]).length - maxSamples = buf.length + 1 - maxSamples by
      simp]
  · rename_i h
    simp only [List.length_append, List.length_singleton, Nat.not_lt] at h
    rw [show buf.length + 1 - maxSamples = 0 by omega, List.drop_zero]

/-- C1 counterexample: the claim asserts that a Collect on an empty buffer
returns an all-zero result for every sampler, but the Memory collector
falls back to a fresh instantaneous query — after the buffer has been
drained, a further Collect with no new ticks returns the fresh query's
(non-zero) values, here total = 8, not the all-zero metrics. -/
theorem c1_counterexample_memory_not_zero :
    (memCollect [] (Except.ok ⟨8, 4, 4, 4, 50, 2, 1⟩)).1 =
      Except.ok (⟨8, 4, 4, 4, 50, 2, 1⟩ : MemoryMetrics) ∧
    (⟨8, 4, 4, 4, 50, 2, 1⟩ : MemoryMetrics) ≠ ⟨0, 0, 0, 0, 0, 0, 0⟩ :=
  ⟨rfl, by decide⟩

/-- C1 (amended): after N sample ticks on an empty buffer with capacity
600, the buffer holds exactly min(N, 600) samples; each Collect drains
exactly that whole buffer and leaves it empty; a subsequent Collect with no
new ticks in between succeeds with zero for every batch-derived value (CPU
usage, Disk-I/O rates, Network rates and totals) — except that the Memory
collector instead falls back to one fresh instantaneous query and returns
its values, and the CPU load averages always come from the fresh
load-average query. -/
theorem c1_collect_drains_min_n_cap {α : Type} (ss : List α)
    (st : List CpuSample) (stm : List MemSample) (std : List DiskIOSample)
    (stn : List NetSample) (types : List (String × String)) (ty : String)
    (la : LoadAvgStat) (q : Except Unit VmemStat) (v : VmemStat) :
    (buildBuf ss).length = min ss.length maxSamples ∧
    drain (buildBuf ss) = (buildBuf ss, []) ∧
    (cpuCollect st (Except.ok la)).2 = [] ∧
    (memCollect stm q).2 = [] ∧
    (diskIOCollect std).2 = [] ∧
    (collectByType stn types ty).2 = [] ∧
    cpuCollect [] (Except.ok la) =
      (Except.ok ⟨0, la.load1, la.load5, la.load15⟩, []) ∧
    diskIOCollect [] = (⟨0, 0, 0, 0⟩, []) ∧
    collectByType [] types ty = (⟨0, 0, 0, 0⟩, []) ∧
    memCollect [] (Except.ok v) =
      (Except.ok ⟨v.total, v.used, v.free, v.available, v.usedPercent,
        v.cached, v.buffers⟩, []) :=
  ⟨buildBuf_length ss, rfl, rfl, memCollect_snd stm q, rfl,
   collectByType_snd stn types ty, rfl, rfl, rfl, rfl⟩

/-- C9: every classifier verdict is "public" or "private"; an interface
already in the cache is never re-evaluated — re-observing it, with
arbitrarily changed addresses, leaves the cache (and hence its label)
unchanged; and a first observation assigns the label computed from the
current addresses exactly once. -/
theorem c9_classifier_sticky (cache : List (String × String)) (name : String)
    (l0 : String) (addrs addrs2 : Option (List ParsedAddr))
    (hcached : cache.lookup name = some l0) :
    (classifyInterface addrs = publicLabel ∨
      classifyInterface addrs = privateLabel) ∧
    observeInterface cache name addrs2 = cache ∧
    (observeInterface cache name addrs2).lookup name = some l0 ∧
    (∀ (c : List (String × String)) (n : String) (a : Option (List ParsedAddr)),
      c.lookup n = none →
      (observeInterface c n a).lookup n = some (classifyInterface a)) := by
  have hobs : observeInterface cache name addrs2 = cache := by
    unfold observeInterface
    rw [hcached]
  refine ⟨?_, hobs, by rw [hobs, hcached], ?_⟩
  · cases addrs with
    | none => right; rfl
    | some l =>
      show classifyAddrs l = publicLabel ∨ classifyAddrs l = privateLabel
      induction l with
      | nil => right; rfl
      | cons a rest ih =>
        cases a with
        | invalid => exact ih
        | valid lb un priv =>
          cases lb <;> cases un <;> cases priv <;>
            first
              | exact ih
              | (left; rfl)
              | (right; rfl)
  · intro c n a hnone
    unfold observeInterface
    rw [hnone]
    simp

/-- C9 witness: instantiation at a one-entry cache holding interface
"eth0" labelled "public", re-observed with a private address. -/
theorem c9_classifier_sticky_witness :
    (observeInterface [(ifaceA, publicLabel)] ifaceA
        (some [ParsedAddr.valid false false true])).lookup ifaceA =
      some publicLabel :=
  (c9_classifier_sticky [(ifaceA, publicLabel)] ifaceA publicLabel
    (some [ParsedAddr.valid false false true])
    (some [ParsedAddr.valid false false true]) rfl).2.2.1

/-- C3: a 401-class transport response inside a cycle marks authFailed; the
next tick then stops the agent (running false, samplers stopped) and exits
the process with the reserved code 3, and every later tick changes nothing
(terminal: the agent never runs another cycle and the counters stay
frozen); any other transmission or collection error leaves the agent
running and only increments the error counter. -/
theorem c3_auth_failure_terminal (st : AgentSt) (d : Bool) (s : SendOutcome)
    (ticks : List (Bool × SendOutcome))
    (hrun : st.running = true) (hauth : st.authFailed = false)
    (hexit : st.exitCode = none) :
    collectAndSend st true SendOutcome.unauthorized =
      { st with authFailed := true } ∧
    runTicks (collectAndSend st true SendOutcome.unauthorized)
        ((d, s) :: ticks) =
      { st with
        authFailed := true, running := false, samplersOn := false,
        exitCode := some 3 } ∧
    collectAndSend st false s = { st with errorCount := st.errorCount + 1 } ∧
    collectAndSend st true SendOutcome.failed =
      { st with errorCount := st.errorCount + 1 } ∧
    (collectAndSend st false s).running = true ∧
    (collectAndSend st false s).authFailed = false ∧
    (collectAndSend st true SendOutcome.failed).running = true ∧
    (collectAndSend st true SendOutcome.failed).authFailed = false := by
  have h1 : collectAndSend st true SendOutcome.unauthorized =
      { st with authFailed := true } := by
    simp [collectAndSend]
  have h3 : collectAndSend st false s =
      { st with errorCount := st.errorCount + 1 } := by
    simp [collectAndSend]
  have h4 : collectAndSend st true SendOutcome.failed =
      { st with errorCount := st.errorCount + 1 } := by
    simp [collectAndSend]
  refine ⟨h1, ?_, h3, h4, by rw [h3]; exact hrun, by rw [h3]; exact hauth,
    by rw [h4]; exact hrun, by rw [h4]; exact hauth⟩
  rw [h1, runTicks]
  rw [show tickStep { st with authFailed := true } d s =
      { st with
        authFailed := true, running := false, samplersOn := false,
        exitCode := some 3 } by simp [tickStep, hexit]]
  exact runTicks_exited ticks _ rfl

/-- C3 witness: a running agent with counters (5, 2) that receives a 401,
then two more ticks: it stops, exits with code 3, and the counters are
untouched. -/
theorem c3_auth_failure_terminal_witness :
    runTicks (collectAndSend ⟨true, false, 5, 2, true, none⟩ true
        SendOutcome.unauthorized)
      ((true, SendOutcome.accepted []) :: [(false, SendOutcome.failed)]) =
      ⟨false, true, 5, 2, false, some 3⟩ :=
  (c3_auth_failure_terminal ⟨true, false, 5, 2, true, none⟩ true
    (SendOutcome.accepted []) [(false, SendOutcome.failed)] rfl rfl rfl).2.1

/-- C6: with a non-empty drained batch, every memory result field is the
per-field arithmetic mean over the drained samples — the integer fields
truncate on division and the divisor is the drained sample count, never the
buffer capacity (the hypotheses rule out uint64 overflow of the per-field
sums, which the claim's exact-mean reading presupposes); with an empty
batch, Collect falls back to one fresh instantaneous query, so a cold-start
Collect does not return all-zero memory stats when the host reports a
non-zero total. -/
theorem c6_memory_mean_and_cold_start_fallback (st : List MemSample)
    (q : Except Unit VmemStat) (v : VmemStat) (hne : st ≠ [])
    (htot : (st.map MemSample.total).sum < U64)
    (hused : (st.map MemSample.used).sum < U64)
    (hfree : (st.map MemSample.free).sum < U64)
    (havail : (st.map MemSample.available).sum < U64)
    (hcach : (st.map MemSample.cached).sum < U64)
    (hbufs : (st.map MemSample.buffers).sum < U64)
    (hv : v.total ≠ 0) :
    memCollect st q =
      (Except.ok ⟨(st.map MemSample.total).sum / st.length,
        (st.map MemSample.used).sum / st.length,
        (st.map MemSample.free).sum / st.length,
        (st.map MemSample.available).sum / st.length,
        (st.map MemSample.usedPercent).sum / (st.length : ℚ),
        (st.map MemSample.cached).sum / st.length,
        (st.map MemSample.buffers).sum / st.length⟩, []) ∧
    memCollect [] (Except.ok v) =
      (Except.ok ⟨v.total, v.used, v.free, v.available, v.usedPercent,
        v.cached, v.buffers⟩, []) ∧
    (memCollect [] (Except.ok v)).1 ≠
      Except.ok (⟨0, 0, 0, 0, 0, 0, 0⟩ : MemoryMetrics) := by
  have hlen : ¬ st.length = 0 := by
    cases st with
    | nil => exact absurd rfl hne
    | cons a l => simp
  refine ⟨?_, rfl, ?_⟩
  · simp only [memCollect, drain]
    rw [if_neg hlen,
      memSumStep_foldl st ⟨0, 0, 0, 0, 0, 0, 0⟩
        ⟨U64_pos, U64_pos, U64_pos, U64_pos, U64_pos, U64_pos⟩]
    simp only [Nat.zero_add, zero_add]
    rw [Nat.mod_eq_of_lt htot, Nat.mod_eq_of_lt hused, Nat.mod_eq_of_lt hfree,
      Nat.mod_eq_of_lt havail, Nat.mod_eq_of_lt hcach, Nat.mod_eq_of_lt hbufs]
  · intro hcontra
    rw [show (memCollect [] (Except.ok v)).1 =
        Except.ok (⟨v.total, v.used, v.free, v.available, v.usedPercent,
          v.cached, v.buffers⟩ : MemoryMetrics) from rfl] at hcontra
    exact hv (congrArg MemoryMetrics.total (Except.ok.inj hcontra))

/-- C6 witness: two concrete samples average to (4+6)/2 = 5 etc., and the
cold-start fallback reproduces the fresh query's non-zero values. -/
theorem c6_memory_mean_witness :
    memCollect [⟨4, 2, 1, 3, 5, 1, 1, 10⟩, ⟨6, 4, 3, 5, 7, 1, 3, 11⟩]
        (Except.error ()) =
      (Except.ok ⟨5, 3, 2, 4, 6, 1, 2⟩, []) := by
  have h := (c6_memory_mean_and_cold_start_fallback
    [⟨4, 2, 1, 3, 5, 1, 1, 10⟩, ⟨6, 4, 3, 5, 7, 1, 3, 11⟩] (Except.error ())
    ⟨8, 4, 4, 4, 50, 2, 1⟩ (by decide) (by decide) (by decide) (by decide)
    (by decide) (by decide) (by decide) (by decide)).1
  rw [h]
  simp only [Prod.mk.injEq, Except.ok.injEq, MemoryMetrics.mk.injEq,
    List.map_cons, List.map_nil, List.sum_cons, List.sum_nil,
    List.length_cons, List.length_nil]
  norm_num

/-- The disk rate loop accumulates exactly the component-wise sums of the
per-pair spec rates, and counts exactly the valid pairs. -/
lemma diskRateStep_foldl (pairs : List (DiskIOSample × DiskIOSample))
    (acc : RateAcc) :
    pairs.foldl diskRateStep acc =
      ⟨acc.totRead +
        ((pairs.filterMap diskPairRateSpec).map DiskIOMetrics.readMBps).sum,
       acc.totWrite +
        ((pairs.filterMap diskPairRateSpec).map DiskIOMetrics.writeMBps).sum,
       acc.totReadOps +
        ((pairs.filterMap diskPairRateSpec).map DiskIOMetrics.readIOPS).sum,
       acc.totWriteOps +
        ((pairs.filterMap diskPairRateSpec).map DiskIOMetrics.writeIOPS).sum,
       acc.cnt + (pairs.filterMap diskPairRateSpec).length⟩ := by
  induction pairs generalizing acc with
  | nil => simp
  | cons p rest ih =>
    rw [List.foldl_cons]
    by_cases h : p.2.timestamp - p.1.timestamp ≤ 0
    · have hstep : diskRateStep acc p = acc := by
        simp only [diskRateStep]
        rw [if_pos h]
      have hspec : diskPairRateSpec p = none := by
        simp only [diskPairRateSpec]
        rw [if_pos h]
      rw [hstep, ih acc]
      simp only [List.filterMap_cons, hspec]
    · have hstep : diskRateStep acc p =
          ⟨acc.totRead + ((diskPairDeltas p.1 p.2).readBytes : ℚ) /
              (p.2.timestamp - p.1.timestamp) / 1024 / 1024,
           acc.totWrite + ((diskPairDeltas p.1 p.2).writeBytes : ℚ) /
              (p.2.timestamp - p.1.timestamp) / 1024 / 1024,
           acc.totReadOps + ((diskPairDeltas p.1 p.2).readCount : ℚ) /
              (p.2.timestamp - p.1.timestamp),
           acc.totWriteOps + ((diskPairDeltas p.1 p.2).writeCount : ℚ) /
              (p.2.timestamp - p.1.timestamp),
           acc.cnt + 1⟩ := by
        simp only [diskRateStep]
        rw [if_neg h]
      have hspec : diskPairRateSpec p =
          some ⟨((diskPairDeltas p.1 p.2).readBytes : ℚ) /
              (p.2.timestamp - p.1.timestamp) / 1024 / 1024,
            ((diskPairDeltas p.1 p.2).writeBytes : ℚ) /
              (p.2.timestamp - p.1.timestamp) / 1024 / 1024,
            ((diskPairDeltas p.1 p.2).readCount : ℚ) /
              (p.2.timestamp - p.1.timestamp),
            ((diskPairDeltas p.1 p.2).writeCount : ℚ) /
              (p.2.timestamp - p.1.timestamp)⟩ := by
        simp only [diskPairRateSpec]
        rw [if_neg h]
      rw [hstep, ih _]
      simp only [List.filterMap_cons, hspec, List.map_cons, List.sum_cons,
        List.length_cons, RateAcc.mk.injEq]
      refine ⟨by ring, by ring, by ring, by ring, by omega⟩

/-- The accumulator formulation of the disk-I/O rate reduction coincides
with the spec's filter-and-average formulation. -/
lemma diskIOReduce_eq_spec (samples : List DiskIOSample) :
    diskIOReduce samples = diskIOReduceSpec samples := by
  by_cases h : samples.length < 2
  · simp only [diskIOReduce, diskIOReduceSpec]
    rw [if_pos h, if_pos h]
  · simp only [diskIOReduce, diskIOReduceSpec]
    rw [if_neg h, if_neg h, diskRateStep_foldl]
    simp only [zero_add, Nat.zero_add]

/-- Evaluation of the disk-I/O reduction on exactly two one-device samples
taken at increasing timestamps. -/
lemma diskIOReduce_two_samples (dev : String) (s1 s2 : IoStats) (t1 t2 : ℚ)
    (h : 0 < t2 - t1) :
    diskIOReduce [⟨[(dev, s1)], t1⟩, ⟨[(dev, s2)], t2⟩] =
      ⟨(subU64 s2.readBytes s1.readBytes : ℚ) / (t2 - t1) / 1024 / 1024,
       (subU64 s2.writeBytes s1.writeBytes : ℚ) / (t2 - t1) / 1024 / 1024,
       (subU64 s2.readCount s1.readCount : ℚ) / (t2 - t1),
       (subU64 s2.writeCount s1.writeCount : ℚ) / (t2 - t1)⟩ := by
  have hd : ¬ (t2 - t1 ≤ 0) := not_le.mpr h
  simp [diskIOReduce, diskRateStep, diskPairDeltas, List.lookup, hd,
    addU64_zero_subU64]

/-- C4: the Disk-I/O reducer returns all-zero rates (and no error) for
fewer than 2 samples; in general it equals the spec's description — per
consecutive pair, skip if elapsed ≤ 0, sum deltas over devices present in
both samples, divide by elapsed seconds, then take the arithmetic mean over
the valid pairs; and on exactly two samples 2 seconds apart with read-byte
delta D the computed read rate is D/2 bytes per second converted to MB/s. -/
theorem c4_disk_io_rate_reduction (samples : List DiskIOSample) (t : ℚ)
    (c D w rc wc : Nat) (hcD : c + D < U64) (hw : w < U64) (hrc : rc < U64)
    (hwc : wc < U64) :
    (samples.length < 2 → diskIOReduce samples = ⟨0, 0, 0, 0⟩) ∧
    diskIOReduce samples = diskIOReduceSpec samples ∧
    diskIOReduce [⟨[(devA, ⟨c, w, rc, wc⟩)], t⟩,
        ⟨[(devA, ⟨c + D, w, rc, wc⟩)], t + 2⟩] =
      ⟨(D : ℚ) / 2 / 1024 / 1024, 0, 0, 0⟩ := by
  refine ⟨?_, diskIOReduce_eq_spec samples, ?_⟩
  · intro h
    simp only [diskIOReduce]
    rw [if_pos h]
  · rw [diskIOReduce_two_samples devA ⟨c, w, rc, wc⟩ ⟨c + D, w, rc, wc⟩ t
      (t + 2) (by ring_nf; norm_num)]
    dsimp only
    rw [show t + 2 - t = (2 : ℚ) by ring,
      subU64_of_le (c + D) c (Nat.le_add_right c D) hcD,
      subU64_of_le w w le_rfl hw, subU64_of_le rc rc le_rfl hrc,
      subU64_of_le wc wc le_rfl hwc]
    simp only [Nat.add_sub_cancel_left, Nat.sub_self, Nat.cast_zero, zero_div]

/-- C4 witness: a byte delta of 2 MiB over 2 seconds. -/
theorem c4_disk_io_rate_reduction_witness :
    diskIOReduce [⟨[(devA, ⟨0, 0, 0, 0⟩)], 0⟩,
        ⟨[(devA, ⟨0 + 2097152, 0, 0, 0⟩)], 0 + 2⟩] =
      ⟨((2097152 : Nat) : ℚ) / 2 / 1024 / 1024, 0, 0, 0⟩ :=
  (c4_disk_io_rate_reduction [] 0 0 2097152 0 0 0 (by decide) (by decide)
    (by decide) (by decide)).2.2

/-- Evaluation of the network bandwidth reduction on exactly two
one-interface samples whose interface matches the requested type: the
computed send rate is the wrapped byte delta converted to Mbps. -/
lemma collectByType_two_sendMbps (name ty : String) (s1 s2 : NetStats)
    (t1 t2 : ℚ) (types : List (String × String))
    (hty : ifaceLabel types name = ty) (h : 0 < t2 - t1) :
    (collectByType [⟨[(name, s1)], t1⟩, ⟨[(name, s2)], t2⟩] types
        ty).1.sendMbps =
      (subU64 s2.bytesSent s1.bytesSent : ℚ) * 8 / (t2 - t1) / 1000000 := by
  have hd : ¬ (t2 - t1 ≤ 0) := not_le.mpr h
  simp [collectByType, drain, netRateStep, netPairDeltas, List.lookup, hd,
    hty, addU64_zero_subU64]

/-- C8: counter deltas in the rate computations are unsigned subtractions:
when the current counter is below the previous one (a counter reset), the
delta is the difference modulo 2^64 — the positive value 2^64 - (prev -
curr) — and the pair is not skipped or masked: the Disk-I/O read rate and
the Network send rate computed from such a pair are built from that
underflowed value, and the resulting rate is strictly positive rather than
zero. -/
theorem c8_counter_reset_underflows (p q : Nat) (hlt : q < p) (hp : p < U64) :
    subU64 q p = U64 - (p - q) ∧
    0 < U64 - (p - q) ∧
    diskIOReduce [⟨[(devA, ⟨p, 0, 0, 0⟩)], 0⟩, ⟨[(devA, ⟨q, 0, 0, 0⟩)], 1⟩] =
      ⟨((U64 - (p - q) : Nat) : ℚ) / 1 / 1024 / 1024, 0, 0, 0⟩ ∧
    (collectByType [⟨[(ifaceA, ⟨p, 0, 0, 0, 0, 0⟩)], 0⟩,
        ⟨[(ifaceA, ⟨q, 0, 0, 0, 0, 0⟩)], 1⟩] [(ifaceA, publicLabel)]
        publicLabel).1.sendMbps =
      ((U64 - (p - q) : Nat) : ℚ) * 8 / 1 / 1000000 ∧
    (0 : ℚ) < ((U64 - (p - q) : Nat) : ℚ) / 1 / 1024 / 1024 := by
  have hpos : 0 < U64 - (p - q) := by
    have := U64_pos
    omega
  have hcast : (0 : ℚ) < ((U64 - (p - q) : Nat) : ℚ) := by exact_mod_cast hpos
  refine ⟨subU64_underflow q p hlt hp, hpos, ?_, ?_, ?_⟩
  · rw [diskIOReduce_two_samples devA ⟨p, 0, 0, 0⟩ ⟨q, 0, 0, 0⟩ 0 1
      (by norm_num)]
    dsimp only
    rw [subU64_underflow q p hlt hp, subU64_of_le 0 0 le_rfl U64_pos,
      show (1 : ℚ) - 0 = 1 by ring]
    simp only [Nat.sub_self, Nat.cast_zero, zero_div]
  · have hty : ifaceLabel [(ifaceA, publicLabel)] ifaceA = publicLabel := by
      simp [ifaceLabel, List.lookup]
    rw [collectByType_two_sendMbps ifaceA publicLabel ⟨p, 0, 0, 0, 0, 0⟩
      ⟨q, 0, 0, 0, 0, 0⟩ 0 1 [(ifaceA, publicLabel)] hty (by norm_num)]
    dsimp only
    rw [subU64_underflow q p hlt hp, show (1 : ℚ) - 0 = 1 by ring]
  · exact div_pos (div_pos (div_pos hcast one_pos) (by norm_num)) (by norm_num)

/-- C8 witness: a reset from 1000 down to 500 yields the huge delta
2^64 - 500. -/
theorem c8_counter_reset_underflows_witness :
    subU64 500 1000 = U64 - (1000 - 500) ∧ 0 < U64 - (1000 - 500) :=
  ⟨(c8_counter_reset_underflows 1000 500 (by decide) (by decide)).1,
   (c8_counter_reset_underflows 1000 500 (by decide) (by decide)).2.1⟩

end MonifyAgent
